import Mathlib

/-!
Verification of the polygon-splitting core of `polysplit.cpp` (geoloqi/polysplit).

The program's core is the recursive function `split_polygons(pieces, geometry,
max_vertices)`, which splits a (multi)polygon into pieces whose exterior rings
have at most `max_vertices` points, pushing each finished piece onto the
`pieces` vector.  The geometry operations it relies on (validity and
simplicity tests, zero-distance buffering, centroid, boolean intersection)
are provided by the external OGR/GEOS engine; they are modelled here as an
abstract `GeomEngine` structure, while everything the repository itself does
(control flow, ring construction, envelope computation, the accumulator
discipline, the `main` argument guard) is translated directly from the
source.  Coordinates are modelled as exact rationals.  The C++ recursion has
no termination guard, so the Lean translation takes an explicit fuel
argument and returns `none` when the fuel runs out.
-/

/-- Model of OGRPoint: a 2D point with rational coordinates standing in for
the C++ doubles. -/
structure OGRPoint where
  x : ℚ
  y : ℚ
deriving DecidableEq

/-- Model of OGRLinearRing: an ordered list of points (a closed ring stores
its first point again at the end, as the mask construction in the source
does explicitly). -/
structure OGRLinearRing where
  points : List OGRPoint
deriving DecidableEq

/-- Number of points of a ring, as `OGRLinearRing::getNumPoints`. -/
def OGRLinearRing.getNumPoints (r : OGRLinearRing) : Nat :=
  r.points.length

/-- Model of OGRPolygon: one exterior ring plus any interior rings (holes).
The splitting algorithm only ever inspects the exterior ring's point count;
holes ride along through the engine operations. -/
structure OGRPolygon where
  exteriorRing : OGRLinearRing
  interiorRings : List OGRLinearRing
deriving DecidableEq

/-- Model of `OGRGeometry::IsEmpty` for a polygon: a polygon is empty when it
has no boundary points. -/
def OGRPolygon.isEmptyPoly (p : OGRPolygon) : Bool :=
  p.exteriorRing.points.isEmpty

/-- Model of `OGRPolygon::clone`: with value semantics a full independent
copy is the value itself. -/
def OGRPolygon.clone (p : OGRPolygon) : OGRPolygon :=
  p

/-- Model of the OGRGeometry variants the algorithm distinguishes via
`getGeometryType()`: wkbPolygon, wkbMultiPolygon, and everything else
(points, lines, ...), the latter carrying only its emptiness flag since the
algorithm inspects nothing else about it.  A NULL geometry pointer is
modelled as `none` at the call sites (`Option OGRGeometry`). -/
inductive OGRGeometry where
  | polygon (p : OGRPolygon)
  | multiPolygon (ps : List OGRPolygon)
  | other (empty : Bool)
deriving DecidableEq

/-- Model of `OGRGeometry::IsEmpty`: a polygon is empty when its ring has no
points, a multipolygon when all of its constituents are empty, and another
geometry according to its own flag. -/
def OGRGeometry.isEmptyGeom : OGRGeometry → Bool
  | .polygon p => p.isEmptyPoly
  | .multiPolygon ps => ps.all (·.isEmptyPoly)
  | .other e => e

/-- Model of OGREnvelope: an axis-aligned bounding box. -/
structure OGREnvelope where
  minX : ℚ
  maxX : ℚ
  minY : ℚ
  maxY : ℚ
deriving DecidableEq

/-- Extending an envelope to cover one more point. -/
def envExtend (e : OGREnvelope) (q : OGRPoint) : OGREnvelope :=
  ⟨min e.minX q.x, max e.maxX q.x, min e.minY q.y, max e.maxY q.y⟩

/-- Envelope of a list of points: the componentwise min/max, seeded from the
first point (the empty list yields a degenerate zero box, a case the
algorithm never reaches because it is guarded by the emptiness check). -/
def envOfPoints : List OGRPoint → OGREnvelope
  | [] => ⟨0, 0, 0, 0⟩
  | q :: rest => rest.foldl envExtend ⟨q.x, q.x, q.y, q.y⟩

/-- Model of `OGRPolygon::getEnvelope`: the bounding box of all points of
all rings. -/
def OGRPolygon.getEnvelope (p : OGRPolygon) : OGREnvelope :=
  envOfPoints (p.exteriorRing.points ++
    p.interiorRings.foldr (fun r acc => r.points ++ acc) [])

/-- The rectangular mask polygon the source builds from a bounding box: a
5-point closed ring (MinX,MinY), (MinX,MaxY), (MaxX,MaxY), (MaxX,MinY),
(MinX,MinY), with no holes. -/
def maskOfEnvelope (bbox : OGREnvelope) : OGRPolygon :=
  ⟨⟨[⟨bbox.minX, bbox.minY⟩, ⟨bbox.minX, bbox.maxY⟩, ⟨bbox.maxX, bbox.maxY⟩,
     ⟨bbox.maxX, bbox.minY⟩, ⟨bbox.minX, bbox.minY⟩]⟩, []⟩

/-- The geometry-engine capabilities the splitter consumes from OGR/GEOS.
These operations live outside the repository, so they are abstract
parameters of the development: `intersection m p` models
`m.Intersection(p)` (whose result may be any geometry variant, or NULL on
engine failure, hence `Option`), `buffer0` models the zero-distance
`Buffer(0)` repair (the source casts its result back to a polygon), and
`centroid` models GEOS's area-weighted `Centroid`. -/
structure GeomEngine where
  isValid : OGRPolygon → Bool
  isSimple : OGRPolygon → Bool
  buffer0 : OGRPolygon → OGRPolygon
  centroid : OGRPolygon → OGRPoint
  intersection : OGRPolygon → OGRPolygon → Option OGRGeometry

/-- Observable state of one `split_polygons` call tree: the `pieces`
accumulator vector, plus a count of the WARNING lines printed to stderr for
NULL geometries. -/
structure SplitState where
  pieces : List OGRPolygon
  warnings : Nat
deriving DecidableEq

/-- Stepping through the constituents of a multipolygon, as the source's
`for (int i = 0; i < multi->getNumGeometries(); i++)` loop: run `f` (the
recursive splitter) on each constituent in order, threading the state. -/
def splitEach (f : OGRPolygon → SplitState → Option SplitState) :
    List OGRPolygon → SplitState → Option SplitState
  | [], st => some st
  | p :: ps, st => (f p st).bind (splitEach f ps)

/-- Shallow embedding of `split_polygons` from polysplit.cpp, parameterised
by the geometry engine and an explicit fuel bound (the C++ recursion is
unguarded; `none` means the fuel ran out before the recursion finished).
The branches mirror the source in order: NULL geometry warns and returns;
empty geometry returns; a multipolygon recurses on each constituent in
order; any other non-polygon type returns; a polygon whose exterior ring
has at most `max_vertices` points is cloned onto the accumulator; an
oversized polygon is repaired by `Buffer(0)` when invalid or non-simple,
then intersected with the four quadrant masks built from its envelope and
centroid, recursing on each intersection in the source's quadrant order. -/
def split_polygons (E : GeomEngine) (max_vertices : Nat) :
    Nat → Option OGRGeometry → SplitState → Option SplitState
  | 0, _, _ => none
  | _ + 1, none, st => some ⟨st.pieces, st.warnings + 1⟩
  | fuel + 1, some g, st =>
    if g.isEmptyGeom then some st
    else
      match g with
      | .multiPolygon ps =>
          splitEach (fun q st2 =>
            split_polygons E max_vertices fuel (some (.polygon q)) st2) ps st
      | .other _ => some st
      | .polygon p =>
          if p.exteriorRing.getNumPoints ≤ max_vertices then
            some ⟨st.pieces ++ [p.clone], st.warnings⟩
          else
            let poly := if !(E.isValid p) || !(E.isSimple p)
                        then E.buffer0 p else p
            let c := E.centroid poly
            let env := poly.getEnvelope
            (split_polygons E max_vertices fuel
                (E.intersection (maskOfEnvelope ⟨env.minX, c.x, env.minY, c.y⟩) poly) st).bind fun st0 =>
            (split_polygons E max_vertices fuel
                (E.intersection (maskOfEnvelope ⟨env.minX, c.x, c.y, env.maxY⟩) poly) st0).bind fun st1 =>
            (split_polygons E max_vertices fuel
                (E.intersection (maskOfEnvelope ⟨c.x, env.maxX, env.minY, c.y⟩) poly) st1).bind fun st2 =>
            split_polygons E max_vertices fuel
                (E.intersection (maskOfEnvelope ⟨c.x, env.maxX, c.y, env.maxY⟩) poly) st2

/-- The quadrant-subdivision step of `split_polygons` factored out for the
statements below: centroid and envelope of the (already repaired) polygon,
the four quadrant masks in the source's order, intersection with the
polygon, and recursion on each result, threading the accumulator. -/
def subdividePoly (E : GeomEngine) (max_vertices fuel : Nat)
    (poly : OGRPolygon) (st : SplitState) : Option SplitState :=
  let c := E.centroid poly
  let env := poly.getEnvelope
  (split_polygons E max_vertices fuel
      (E.intersection (maskOfEnvelope ⟨env.minX, c.x, env.minY, c.y⟩) poly) st).bind fun st0 =>
  (split_polygons E max_vertices fuel
      (E.intersection (maskOfEnvelope ⟨env.minX, c.x, c.y, env.maxY⟩) poly) st0).bind fun st1 =>
  (split_polygons E max_vertices fuel
      (E.intersection (maskOfEnvelope ⟨c.x, env.maxX, env.minY, c.y⟩) poly) st1).bind fun st2 =>
  split_polygons E max_vertices fuel
      (E.intersection (maskOfEnvelope ⟨c.x, env.maxX, c.y, env.maxY⟩) poly) st2

/-- Outcome of the argument checks in `main`: either the usage message is
printed and the process exits, or the program proceeds to the splitting
loop with the parsed threshold. -/
inductive MainAction where
  | usageExit
  | proceed (max_vertices : Int)
deriving DecidableEq

/-- Model of the guard in `main` right after option parsing:
`if (argc < 2 || max_vertices <= 5) usage();` where `argc` is the number of
remaining positional arguments and `max_vertices` is the C int parsed by
`atoi` from `-m` (default 250).  Only `proceed` reaches the loop that calls
`split_polygons`. -/
def main_check (argc max_vertices : Int) : MainAction :=
  if argc < 2 ∨ max_vertices ≤ 5 then .usageExit else .proceed max_vertices

/-! Concrete engines and polygons used to instantiate the universally
quantified theorems below on closed inputs. -/

/-- A concrete engine whose polygons are always valid and simple and whose
intersections come back empty, so the quadrant recursion bottoms out
immediately. -/
def eEngine : GeomEngine :=
  ⟨fun _ => true, fun _ => true, id, fun _ => ⟨0, 0⟩, fun _ _ => some (.other true)⟩

/-- A concrete engine that reports every polygon invalid and repairs it to a
fixed small quadrilateral, with empty intersections. -/
def rEngine : GeomEngine :=
  ⟨fun _ => false, fun _ => true,
   fun _ => ⟨⟨[⟨0, 0⟩, ⟨2, 0⟩, ⟨2, 2⟩, ⟨0, 2⟩, ⟨0, 0⟩]⟩, []⟩,
   fun _ => ⟨3, 3⟩, fun _ _ => some (.other true)⟩

/-- A 10 by 10 square whose closed ring has exactly 5 points. -/
def sq5 : OGRPolygon := ⟨⟨[⟨0, 0⟩, ⟨10, 0⟩, ⟨10, 10⟩, ⟨0, 10⟩, ⟨0, 0⟩]⟩, []⟩

/-- A second small polygon, a unit triangle with a 4-point closed ring. -/
def tri4 : OGRPolygon := ⟨⟨[⟨20, 0⟩, ⟨21, 0⟩, ⟨20, 1⟩, ⟨20, 0⟩]⟩, []⟩

/-- A hexagon whose closed ring has 7 points, oversized for thresholds ≤ 6. -/
def hex7 : OGRPolygon :=
  ⟨⟨[⟨0, 0⟩, ⟨4, 0⟩, ⟨6, 2⟩, ⟨6, 5⟩, ⟨3, 7⟩, ⟨0, 5⟩, ⟨0, 0⟩]⟩, []⟩

/-! Branch-level equations of `split_polygons`, one per source branch. -/

/-- Empty geometries of any variant produce no pieces and no warnings. -/
theorem split_polygons_empty (E : GeomEngine) (max_vertices fuel : Nat)
    (g : OGRGeometry) (st : SplitState) (he : g.isEmptyGeom = true) :
    split_polygons E max_vertices (fuel + 1) (some g) st = some st := by
  simp [split_polygons, he]

/-- Non-polygon, non-multipolygon geometries produce no pieces and no
warnings, whether empty or not. -/
theorem split_polygons_other (E : GeomEngine) (max_vertices fuel : Nat)
    (b : Bool) (st : SplitState) :
    split_polygons E max_vertices (fuel + 1) (some (.other b)) st = some st := by
  cases b <;> simp [split_polygons, OGRGeometry.isEmptyGeom]

/-- A non-empty multipolygon is split by recursing on its constituent
polygons in order, threading the accumulator. -/
theorem split_polygons_multi (E : GeomEngine) (max_vertices fuel : Nat)
    (ps : List OGRPolygon) (st : SplitState)
    (he : (OGRGeometry.multiPolygon ps).isEmptyGeom = false) :
    split_polygons E max_vertices (fuel + 1) (some (.multiPolygon ps)) st =
      splitEach (fun q st2 =>
        split_polygons E max_vertices fuel (some (.polygon q)) st2) ps st := by
  simp [split_polygons, he]

/-- A non-empty polygon whose exterior ring is within the threshold is
cloned onto the accumulator as a single piece. -/
theorem split_polygons_poly_small (E : GeomEngine) (max_vertices fuel : Nat)
    (p : OGRPolygon) (st : SplitState)
    (h1 : p.isEmptyPoly = false)
    (h2 : p.exteriorRing.getNumPoints ≤ max_vertices) :
    split_polygons E max_vertices (fuel + 1) (some (.polygon p)) st =
      some ⟨st.pieces ++ [p.clone], st.warnings⟩ := by
  simp [split_polygons, OGRGeometry.isEmptyGeom, h1, h2]

/-- An oversized polygon is subdivided: the polygon used for the centroid,
the envelope and all four quadrant intersections is the `Buffer(0)` repair
when the original is invalid or non-simple, and the original otherwise. -/
theorem split_polygons_poly_big (E : GeomEngine) (max_vertices fuel : Nat)
    (p : OGRPolygon) (st : SplitState)
    (h1 : p.isEmptyPoly = false)
    (h2 : max_vertices < p.exteriorRing.getNumPoints) :
    split_polygons E max_vertices (fuel + 1) (some (.polygon p)) st =
      subdividePoly E max_vertices fuel
        (if !(E.isValid p) || !(E.isSimple p) then E.buffer0 p else p) st := by
  have h2' : ¬ p.exteriorRing.getNumPoints ≤ max_vertices := not_le.mpr h2
  simp only [split_polygons, OGRGeometry.isEmptyGeom, h1, Bool.false_eq_true,
    if_false, h2', subdividePoly]

/-! Accumulator discipline: `split_polygons` only ever appends to the
`pieces` vector and adds to the warning count.  This is captured by showing
every call acts on the state as the translation by its own run from the
empty state. -/

/-- A state transformer that only appends: its action on any state is its
action on the empty state, translated by the prior pieces and warnings. -/
def StateShift (f : SplitState → Option SplitState) : Prop :=
  ∀ l w, f ⟨l, w⟩ = (f ⟨[], 0⟩).map fun r => ⟨l ++ r.pieces, w + r.warnings⟩

theorem stateShift_bind {f g : SplitState → Option SplitState}
    (hf : StateShift f) (hg : StateShift g) :
    StateShift (fun st => (f st).bind g) := by
  intro l w
  simp only
  rw [hf l w]
  cases hfe : f ⟨[], 0⟩ with
  | none => simp
  | some r =>
    simp only [Option.map_some', Option.some_bind]
    rw [hg (l ++ r.pieces) (w + r.warnings), hg r.pieces r.warnings]
    cases g ⟨[], 0⟩ with
    | none => simp
    | some s => simp [List.append_assoc, Nat.add_assoc]

theorem stateShift_splitEach {f : OGRPolygon → SplitState → Option SplitState}
    (hf : ∀ p, StateShift (f p)) (ps : List OGRPolygon) :
    StateShift (splitEach f ps) := by
  induction ps with
  | nil => intro l w; simp [splitEach]
  | cons p ps ih =>
    intro l w
    have h := stateShift_bind (hf p) ih l w
    simpa [splitEach] using h

/-- Main accumulator lemma: every `split_polygons` call is a pure appender,
at any fuel, for any geometry and any engine. -/
theorem split_polygons_stateShift (E : GeomEngine) (max_vertices : Nat) :
    ∀ (fuel : Nat) (g : Option OGRGeometry),
      StateShift (split_polygons E max_vertices fuel g) := by
  intro fuel
  induction fuel with
  | zero => intro g l w; rfl
  | succ fuel ih =>
    intro g
    match g with
    | none => intro l w; simp [split_polygons]
    | some g =>
      cases he : g.isEmptyGeom with
      | true => intro l w; rw [split_polygons_empty _ _ _ _ _ he,
                               split_polygons_empty _ _ _ _ _ he]; simp
      | false =>
        match g with
        | .multiPolygon ps =>
          intro l w
          rw [split_polygons_multi _ _ _ _ _ he, split_polygons_multi _ _ _ _ _ he]
          exact stateShift_splitEach (fun q => ih (some (.polygon q))) ps l w
        | .other b =>
          intro l w
          rw [split_polygons_other, split_polygons_other]; simp
        | .polygon p =>
          have hb : p.isEmptyPoly = false := he
          cases hsize : decide (p.exteriorRing.getNumPoints ≤ max_vertices) with
          | true =>
            have hs := of_decide_eq_true hsize
            intro l w
            rw [split_polygons_poly_small _ _ _ _ _ hb hs,
                split_polygons_poly_small _ _ _ _ _ hb hs]
            simp
          | false =>
            have hs := lt_of_not_le (of_decide_eq_false hsize)
            intro l w
            rw [split_polygons_poly_big _ _ _ _ _ hb hs,
                split_polygons_poly_big _ _ _ _ _ hb hs]
            exact stateShift_bind (ih _) (stateShift_bind (ih _)
              (stateShift_bind (ih _) (ih _))) l w

/-! Vertex-count invariant: the only place `split_polygons` ever pushes a
piece is the sub-threshold branch, so every piece that was not already in
the accumulator has exterior ring point count at most the threshold. -/

/-- A state transformer whose every new piece is within the threshold. -/
def PiecesBound (max_vertices : Nat) (f : SplitState → Option SplitState) : Prop :=
  ∀ st out, f st = some out → ∀ q ∈ out.pieces,
    q ∈ st.pieces ∨ q.exteriorRing.getNumPoints ≤ max_vertices

theorem piecesBound_bind {max_vertices : Nat}
    {f g : SplitState → Option SplitState}
    (hf : PiecesBound max_vertices f) (hg : PiecesBound max_vertices g) :
    PiecesBound max_vertices (fun st => (f st).bind g) := by
  intro st out h q hq
  simp only [Option.bind_eq_some] at h
  obtain ⟨mid, hmid, hout⟩ := h
  rcases hg mid out hout q hq with hqm | hsmall
  · exact hf st mid hmid q hqm
  · exact Or.inr hsmall

theorem piecesBound_splitEach {max_vertices : Nat}
    {f : OGRPolygon → SplitState → Option SplitState}
    (hf : ∀ p, PiecesBound max_vertices (f p)) (ps : List OGRPolygon) :
    PiecesBound max_vertices (splitEach f ps) := by
  induction ps with
  | nil =>
    intro st out h q hq
    simp only [splitEach, Option.some.injEq] at h
    exact Or.inl (h ▸ hq)
  | cons p ps ih =>
    have h := piecesBound_bind (hf p) ih
    intro st out hso q hq
    exact h st out (by simpa [splitEach] using hso) q hq

/-- Main vertex-bound lemma: any piece in the output of a `split_polygons`
call was either already in the accumulator or respects the threshold. -/
theorem split_polygons_piecesBound (E : GeomEngine) (max_vertices : Nat) :
    ∀ (fuel : Nat) (g : Option OGRGeometry),
      PiecesBound max_vertices (split_polygons E max_vertices fuel g) := by
  intro fuel
  induction fuel with
  | zero => intro g st out h; exact absurd h (by simp [split_polygons])
  | succ fuel ih =>
    intro g
    match g with
    | none =>
      intro st out h q hq
      simp only [split_polygons, Option.some.injEq] at h
      rw [← h] at hq
      exact Or.inl (by simpa using hq)
    | some g =>
      cases he : g.isEmptyGeom with
      | true =>
        intro st out h q hq
        rw [split_polygons_empty _ _ _ _ _ he] at h
        obtain rfl : st = out := by simpa using h
        exact Or.inl hq
      | false =>
        match g with
        | .multiPolygon ps =>
          intro st out h q hq
          rw [split_polygons_multi _ _ _ _ _ he] at h
          exact piecesBound_splitEach (fun p => ih (some (.polygon p))) ps
            st out h q hq
        | .other b =>
          intro st out h q hq
          rw [split_polygons_other] at h
          obtain rfl : st = out := by simpa using h
          exact Or.inl hq
        | .polygon p =>
          have hb : p.isEmptyPoly = false := he
          cases hsize : decide (p.exteriorRing.getNumPoints ≤ max_vertices) with
          | true =>
            have hs := of_decide_eq_true hsize
            intro st out h q hq
            rw [split_polygons_poly_small _ _ _ _ _ hb hs] at h
            obtain rfl : (⟨st.pieces ++ [p.clone], st.warnings⟩ : SplitState) = out := by
              simpa using h
            rcases List.mem_append.mp hq with hql | hqr
            · exact Or.inl hql
            · obtain rfl : q = p.clone := by simpa using hqr
              exact Or.inr hs
          | false =>
            have hs := lt_of_not_le (of_decide_eq_false hsize)
            intro st out h q hq
            rw [split_polygons_poly_big _ _ _ _ _ hb hs] at h
            exact piecesBound_bind (ih _) (piecesBound_bind (ih _)
              (piecesBound_bind (ih _) (ih _))) st out h q hq

/-! Claim theorems. -/

/-- C1: every piece returned by `split_polygons` satisfies the vertex
threshold — the only push site is guarded by the `≤ max_vertices` check, so
any piece of the final accumulator that was not already there before the
call has exterior ring point count at most the threshold (in fact no
oversized piece is ever emitted, so the documented degenerate exception is
never needed for emitted pieces). -/
theorem claim_C1_pieces_vertex_bound (E : GeomEngine)
    (max_vertices fuel : Nat) (g : Option OGRGeometry) (st out : SplitState)
    (h : split_polygons E max_vertices fuel g st = some out) :
    ∀ q ∈ out.pieces,
      q ∈ st.pieces ∨ q.exteriorRing.getNumPoints ≤ max_vertices :=
  split_polygons_piecesBound E max_vertices fuel g st out h

/-- Witness for C1 at a concrete input: splitting a 5-point square with
threshold 6 emits the square itself, and the theorem certifies its vertex
bound. -/
theorem claim_C1_witness :
    (split_polygons eEngine 6 5 (some (.polygon sq5)) ⟨[], 0⟩ =
      some ⟨[sq5], 0⟩) ∧
    (sq5 ∈ ([] : List OGRPolygon) ∨ sq5.exteriorRing.getNumPoints ≤ 6) :=
  ⟨by decide,
   claim_C1_pieces_vertex_bound eEngine 6 5 (some (.polygon sq5)) ⟨[], 0⟩
     ⟨[sq5], 0⟩ (by decide) sq5 (by decide)⟩

/-- C4: an oversized, non-empty polygon is handled by building exactly the
four quadrant masks that combine the envelope extremes with the centroid
coordinates — {minX..cX, minY..cY}, {minX..cX, cY..maxY}, {cX..maxX,
minY..cY}, {cX..maxX, cY..maxY} — intersecting each mask with the
(repaired) polygon, and recursing on each intersection with the same
threshold, threading the accumulator (see `subdividePoly`). -/
theorem claim_C4_quadrant_subdivision (E : GeomEngine)
    (max_vertices fuel : Nat) (p : OGRPolygon) (st : SplitState)
    (h1 : p.isEmptyPoly = false)
    (h2 : max_vertices < p.exteriorRing.getNumPoints) :
    split_polygons E max_vertices (fuel + 1) (some (.polygon p)) st =
      subdividePoly E max_vertices fuel
        (if !(E.isValid p) || !(E.isSimple p) then E.buffer0 p else p) st :=
  split_polygons_poly_big E max_vertices fuel p st h1 h2

/-- Witness for C4 at a concrete input: a 7-point hexagon over threshold 6
with a concrete engine reduces to the quadrant subdivision of itself. -/
theorem claim_C4_witness :
    split_polygons eEngine 6 2 (some (.polygon hex7)) ⟨[], 0⟩ =
      subdividePoly eEngine 6 1 hex7 ⟨[], 0⟩ :=
  claim_C4_quadrant_subdivision eEngine 6 1 hex7 ⟨[], 0⟩ (by decide) (by decide)

/-- C5: a non-empty polygon whose exterior ring point count is at most the
threshold (including exactly equal) yields exactly one piece, a clone of
the polygon appended to the accumulator, and the clone has the same
boundary as the original (value identity in this embedding). -/
theorem claim_C5_small_polygon_copied (E : GeomEngine)
    (max_vertices fuel : Nat) (p : OGRPolygon) (st : SplitState)
    (h1 : p.isEmptyPoly = false)
    (h2 : p.exteriorRing.getNumPoints ≤ max_vertices) :
    split_polygons E max_vertices (fuel + 1) (some (.polygon p)) st =
      some ⟨st.pieces ++ [p.clone], st.warnings⟩ ∧ p.clone = p :=
  ⟨split_polygons_poly_small E max_vertices fuel p st h1 h2, rfl⟩

/-- Witness for C5 at the spec's boundary scenario: threshold 5 and a
polygon whose ring has exactly 5 points returns that polygon unchanged. -/
theorem claim_C5_witness :
    (split_polygons eEngine 5 1 (some (.polygon sq5)) ⟨[], 0⟩ =
      some ⟨[sq5], 0⟩) ∧ sq5.clone = sq5 :=
  claim_C5_small_polygon_copied eEngine 5 0 sq5 ⟨[], 0⟩ (by decide) (by decide)

/-- C6: splitting a two-constituent multipolygon returns the concatenation,
in order, of the splits of its constituents: the pieces of `A` followed by
the pieces of `B` (and likewise for the warning counts), given enough fuel
for the constituent runs. -/
theorem claim_C6_multipolygon_concat (E : GeomEngine)
    (max_vertices fuel : Nat) (A B : OGRPolygon) (a b : SplitState)
    (hA : split_polygons E max_vertices (fuel + 1)
            (some (.polygon A)) ⟨[], 0⟩ = some a)
    (hB : split_polygons E max_vertices (fuel + 1)
            (some (.polygon B)) ⟨[], 0⟩ = some b) :
    split_polygons E max_vertices (fuel + 2)
        (some (.multiPolygon [A, B])) ⟨[], 0⟩ =
      some ⟨a.pieces ++ b.pieces, a.warnings + b.warnings⟩ := by
  obtain ⟨ap, aw⟩ := a
  obtain ⟨bp, bw⟩ := b
  cases he : (OGRGeometry.multiPolygon [A, B]).isEmptyGeom with
  | true =>
    have hab : A.isEmptyPoly = true ∧ B.isEmptyPoly = true := by
      simpa [OGRGeometry.isEmptyGeom] using he
    have hAe : (OGRGeometry.polygon A).isEmptyGeom = true := hab.1
    have hBe : (OGRGeometry.polygon B).isEmptyGeom = true := hab.2
    rw [split_polygons_empty _ _ _ _ _ hAe] at hA
    rw [split_polygons_empty _ _ _ _ _ hBe] at hB
    have ha : (⟨[], 0⟩ : SplitState) = ⟨ap, aw⟩ := by simpa using hA
    have hb : (⟨[], 0⟩ : SplitState) = ⟨bp, bw⟩ := by simpa using hB
    rw [split_polygons_empty _ _ _ _ _ he]
    rw [← ha, ← hb]
    simp
  | false =>
    rw [split_polygons_multi _ _ _ _ _ he]
    simp only [splitEach]
    rw [hA]
    have hs := split_polygons_stateShift E max_vertices (fuel + 1)
      (some (.polygon B)) ap aw
    rw [hB] at hs
    simp only [Option.some_bind]
    rw [hs]
    simp

/-- Witness for C6 at a concrete input: a multipolygon of two small
polygons splits into the two polygons in order. -/
theorem claim_C6_witness :
    split_polygons eEngine 6 2 (some (.multiPolygon [sq5, tri4])) ⟨[], 0⟩ =
      some ⟨[sq5, tri4], 0⟩ :=
  claim_C6_multipolygon_concat eEngine 6 0 sq5 tri4 ⟨[sq5], 0⟩ ⟨[tri4], 0⟩
    (by decide) (by decide)

/-- C7: a NULL geometry produces no pieces but increments the warning
count; any empty geometry produces no pieces silently; any geometry that is
neither polygon nor multipolygon produces no pieces silently; none of these
cases is an error (each returns normally). -/
theorem claim_C7_null_empty_other (E : GeomEngine)
    (max_vertices fuel : Nat) (st : SplitState) (b : Bool) :
    split_polygons E max_vertices (fuel + 1) none st =
      some ⟨st.pieces, st.warnings + 1⟩ ∧
    (∀ g : OGRGeometry, g.isEmptyGeom = true →
      split_polygons E max_vertices (fuel + 1) (some g) st = some st) ∧
    split_polygons E max_vertices (fuel + 1) (some (.other b)) st = some st :=
  ⟨rfl,
   fun g hg => split_polygons_empty E max_vertices fuel g st hg,
   split_polygons_other E max_vertices fuel b st⟩

/-- Witness for C7 at concrete inputs: NULL warns, an empty multipolygon
and a point-like geometry are silent, all with zero pieces. -/
theorem claim_C7_witness :
    split_polygons eEngine 6 1 none ⟨[], 0⟩ = some ⟨[], 1⟩ ∧
    split_polygons eEngine 6 1 (some (.multiPolygon [])) ⟨[], 0⟩ =
      some ⟨[], 0⟩ ∧
    split_polygons eEngine 6 1 (some (.other false)) ⟨[], 0⟩ =
      some ⟨[], 0⟩ :=
  ⟨(claim_C7_null_empty_other eEngine 6 0 ⟨[], 0⟩ false).1,
   (claim_C7_null_empty_other eEngine 6 0 ⟨[], 0⟩ false).2.1
     (.multiPolygon []) (by decide),
   (claim_C7_null_empty_other eEngine 6 0 ⟨[], 0⟩ false).2.2⟩

/-- C8: an oversized polygon that is invalid or non-simple is replaced by
its `Buffer(0)` repair, applied exactly once at this recursion level, and
the repaired polygon supersedes the original for the centroid, the
envelope and all four quadrant intersections (`subdividePoly` computes all
of these from its polygon argument); the call returns normally, surfacing
no error. -/
theorem claim_C8_validity_repair (E : GeomEngine)
    (max_vertices fuel : Nat) (p : OGRPolygon) (st : SplitState)
    (h1 : p.isEmptyPoly = false)
    (h2 : max_vertices < p.exteriorRing.getNumPoints)
    (h3 : E.isValid p = false ∨ E.isSimple p = false) :
    split_polygons E max_vertices (fuel + 1) (some (.polygon p)) st =
      subdividePoly E max_vertices fuel (E.buffer0 p) st := by
  rw [split_polygons_poly_big _ _ _ _ _ h1 h2]
  have hc : (!(E.isValid p) || !(E.isSimple p)) = true := by
    rcases h3 with h | h <;> simp [h]
  simp [hc]

/-- Witness for C8 at a concrete input: an engine that reports the 7-point
hexagon invalid subdivides its repaired replacement instead. -/
theorem claim_C8_witness :
    split_polygons rEngine 6 2 (some (.polygon hex7)) ⟨[], 0⟩ =
      subdividePoly rEngine 6 1 (rEngine.buffer0 hex7) ⟨[], 0⟩ :=
  claim_C8_validity_repair rEngine 6 1 hex7 ⟨[], 0⟩ (by decide) (by decide)
    (Or.inl (by decide))

/-- C9: the guard in `main` sends every threshold value of at most 5 (for
any remaining-argument count) to the usage-and-exit path, so the splitting
loop, which is only reached through `proceed`, never runs with such a
threshold. -/
theorem claim_C9_threshold_guard (argc max_vertices : Int)
    (h : max_vertices ≤ 5) :
    main_check argc max_vertices = MainAction.usageExit := by
  unfold main_check
  exact if_pos (Or.inr h)

/-- Witness for C9 at the boundary value: threshold exactly 5 with two
positional arguments exits via usage. -/
theorem claim_C9_witness :
    (5 : Int) ≤ 5 ∧ main_check 2 5 = MainAction.usageExit :=
  ⟨by decide, claim_C9_threshold_guard 2 5 (by decide)⟩

/-- C10: `split_polygons` only appends to the pieces accumulator — whatever
the geometry, threshold, engine and prior contents, the accumulator before
the call is a prefix (unchanged and in order) of the accumulator after the
call. -/
theorem claim_C10_accumulator_prefix (E : GeomEngine)
    (max_vertices fuel : Nat) (g : Option OGRGeometry) (st out : SplitState)
    (h : split_polygons E max_vertices fuel g st = some out) :
    ∃ fresh, out.pieces = st.pieces ++ fresh := by
  obtain ⟨l, w⟩ := st
  have hs := split_polygons_stateShift E max_vertices fuel g l w
  rw [hs] at h
  cases he : split_polygons E max_vertices fuel g ⟨[], 0⟩ with
  | none => rw [he] at h; simp at h
  | some r =>
    rw [he] at h
    simp only [Option.map_some', Option.some.injEq] at h
    exact ⟨r.pieces, by rw [← h]⟩

/-- Witness for C10 at a concrete input: splitting a small square on top of
a non-empty accumulator leaves the prior piece in place as a prefix. -/
theorem claim_C10_witness :
    (split_polygons eEngine 6 5 (some (.polygon sq5)) ⟨[tri4], 2⟩ =
      some ⟨[tri4, sq5], 2⟩) ∧
    ∃ fresh, ([tri4, sq5] : List OGRPolygon) = [tri4] ++ fresh :=
  ⟨by decide,
   claim_C10_accumulator_prefix eEngine 6 5 (some (.polygon sq5))
     ⟨[tri4], 2⟩ ⟨[tri4, sq5], 2⟩ (by decide)⟩
